import Mathlib

/-!
Verification of the goproxy2 HTTP/HTTPS intercepting proxy engine.

A shallow embedding of the engine's pure decision logic: the CONNECT handler
dispatch, the request/response filter chains, the predicate-guard wrappers,
the TLS-MITM response framing and URL rewriting, the localhost predicate, and
the host/port string helpers. Network I/O is modelled as explicit traces
(lists of byte-strings written to the hijacked client connection), and Go
panics are modelled as `Except.error`.
-/

namespace Goproxy

/-! ## Data model: URLs, requests, responses, headers -/

/-- Minimal model of Go `net/url.URL`: scheme, authority host, path and raw
query (opaque/user/fragment are not needed by any claim). -/
structure URL where
  scheme : String
  host : String
  path : String
  query : String
deriving DecidableEq

/-- Go `url.URL.IsAbs()`: a URL is absolute iff it has a scheme. -/
def URL.isAbs (u : URL) : Bool := u.scheme != ""

/-- Go `url.URL.String()` restricted to the modelled fields: `scheme:` when a
scheme is present, `//host` when an authority is present, the path, then
`?query` when a query is present. -/
def URL.render (u : URL) : String :=
  (if u.scheme = "" then "" else u.scheme ++ ":") ++
    (if u.host = "" then "" else "//" ++ u.host) ++ u.path ++
    (if u.query = "" then "" else "?" ++ u.query)

/-- Minimal model of Go `http.Request`: the parsed URL, the `Host` field and
the peer address (`RemoteAddr`). -/
structure Request where
  url : URL
  host : String
  remoteAddr : String
deriving DecidableEq

/-- Go `http.Header` as an association list from header name to value list.
`net/http` stores names in canonical MIME form; all names used by the engine
(`Content-Length`, `Transfer-Encoding`, `Connection`) are already canonical,
so canonicalisation is the identity on everything the claims touch. -/
abbrev Header := List (String × List String)

/-- `Header.Del`: remove every entry stored under the key. -/
def hDel (k : String) (h : Header) : Header := h.filter (fun e => e.1 != k)

/-- `Header.Set`: replace the key's entries by the single given value. -/
def hSet (k : String) (v : String) (h : Header) : Header := (k, [v]) :: hDel k h

/-- `Header` lookup of the full value list of a key (`none` = key absent). -/
def hGet (k : String) (h : Header) : Option (List String) :=
  (h.find? (fun e => e.1 == k)).map (·.2)

/-- Minimal model of Go `http.Response`: status text, status code, headers
and body. -/
structure Response where
  status : String
  statusCode : Nat
  header : Header
  body : String
deriving DecidableEq

/-! ## Header helper lemmas -/

theorem hDel_cons (k : String) (e : String × List String) (t : Header) :
    hDel k (e :: t) = if e.1 == k then hDel k t else e :: hDel k t := by
  by_cases h : e.1 = k <;> simp [hDel, List.filter_cons, h]

theorem hGet_cons (k : String) (e : String × List String) (t : Header) :
    hGet k (e :: t) = if e.1 == k then some e.2 else hGet k t := by
  by_cases h : e.1 = k <;> simp [hGet, List.find?_cons, h]

theorem hGet_hDel_self (k : String) (h : Header) : hGet k (hDel k h) = none := by
  induction h with
  | nil => rfl
  | cons e t ih =>
    rw [hDel_cons]
    by_cases he : e.1 = k
    · simpa [he] using ih
    · rw [if_neg (by simpa using he), hGet_cons, if_neg (by simpa using he)]
      exact ih

theorem hGet_hDel_ne (k k' : String) (hne : k' ≠ k) (h : Header) :
    hGet k (hDel k' h) = hGet k h := by
  induction h with
  | nil => rfl
  | cons e t ih =>
    rw [hDel_cons]
    by_cases he : e.1 = k'
    · have h2 : (e.1 == k) = false := by simp [he, hne]
      rw [if_pos (by simpa using he), hGet_cons, h2]
      simpa using ih
    · rw [if_neg (by simpa using he), hGet_cons, hGet_cons]
      by_cases hek : e.1 = k <;> simp [hek, ih]

theorem hGet_hSet_self (k v : String) (h : Header) :
    hGet k (hSet k v h) = some [v] := by
  simp [hGet, hSet, List.find?]

theorem hGet_hSet_ne (k k' v : String) (hne : k' ≠ k) (h : Header) :
    hGet k (hSet k' v h) = hGet k h := by
  have : (k' == k) = false := by simp [hne]
  simp only [hGet, hSet, List.find?, this]
  exact hGet_hDel_ne k k' hne h

/-! ## C10: stripPort and the leaf-certificate hostname -/

/-- Model of Go `strings.IndexRune`: index of the first occurrence of the
character, `none` when absent (Go returns `-1`). -/
def indexRune (l : List Char) (c : Char) : Option Nat :=
  match l with
  | [] => none
  | a :: as => if a = c then some 0 else (indexRune as c).map (· + 1)

/-- `stripPort` from `https.go`: `s[:ix]` for `ix` the first `':'`, or the
whole string when no colon occurs. -/
def stripPort (s : String) : String :=
  match indexRune s.data ':' with
  | none => s
  | some ix => ⟨s.data.take ix⟩

/-- The hostname list `TLSConfigFromCA`'s returned factory passes to
`signHost` when asked for a leaf certificate for `host`. -/
def TLSConfigFromCA_hosts (host : String) : List String := [stripPort host]

theorem indexRune_take_eq_takeWhile (c : Char) (l : List Char) :
    (match indexRune l c with
      | none => l
      | some ix => l.take ix) = l.takeWhile (fun a => a != c) := by
  induction l with
  | nil => rfl
  | cons a as ih =>
    by_cases hac : a = c
    · simp [indexRune, hac, List.takeWhile_cons]
    · simp only [indexRune, hac, if_false, List.takeWhile_cons]
      have hbne : (a != c) = true := by simp [hac]
      rw [hbne]
      simp only [if_true]
      cases hidx : indexRune as c with
      | none => simpa [hidx] using congrArg (a :: ·) (by simpa [hidx] using ih)
      | some ix => simpa [hidx, List.take_succ_cons] using congrArg (a :: ·) (by simpa [hidx] using ih)

/-- C10: `stripPort` returns the prefix before the first `':'` (the whole
string when there is no colon); on any string starting with `':'` it returns
the empty string; hence the leaf certificate for host `"::1"` is requested
for the empty hostname. -/
theorem stripPort_spec (s : String) (l : List Char) :
    stripPort s = ⟨s.data.takeWhile (fun a => a != ':')⟩
    ∧ stripPort ⟨':' :: l⟩ = ""
    ∧ TLSConfigFromCA_hosts "::1" = [""] := by
  refine ⟨?_, ?_, ?_⟩
  · have h := indexRune_take_eq_takeWhile ':' s.data
    unfold stripPort
    cases hidx : indexRune s.data ':' with
    | none =>
      rw [hidx] at h
      exact congrArg String.mk h
    | some ix =>
      rw [hidx] at h
      exact congrArg String.mk h
  · show stripPort ⟨':' :: l⟩ = ""
    unfold stripPort
    simp [indexRune]
  · decide

/-! ## C9: request predicates promoted to response predicates -/

/-- Go `ReqConditionFunc`: a boolean predicate over a request. -/
abbrev ReqConditionFunc := Request → Bool

/-- `ReqConditionFunc.HandleReq(req) = c(req)` (`actions.go`). -/
def ReqConditionFunc.HandleReq (c : ReqConditionFunc) (req : Request) : Bool :=
  c req

/-- `ReqConditionFunc.HandleResp(req, resp) = c(req)` (`actions.go`): the
response argument is dropped so the condition can be used where a
`RespCondition` is expected. -/
def ReqConditionFunc.HandleResp (c : ReqConditionFunc) (req : Request)
    (_resp : Option Response) : Bool :=
  c req

/-- C9: a request predicate used as a response predicate ignores the
response: for any two responses (including absent ones) the result is the
same and equals the underlying request predicate. -/
theorem ReqConditionFunc_HandleResp_ignores_response (c : ReqConditionFunc)
    (req : Request) (r1 r2 : Option Response) :
    c.HandleResp req r1 = c.HandleResp req r2
    ∧ c.HandleResp req r1 = c.HandleReq req :=
  ⟨rfl, rfl⟩

/-! ## CONNECT actions and the CONNECT handler dispatch (C1) -/

/-- The `ConnectActionLiteral` enumeration from `https.go`. -/
inductive ConnectActionLiteral
  | connectAccept
  | connectReject
  | connectMitm
  | connectHijack
  | connectHTTPMitm
  | connectProxyAuthHijack
deriving DecidableEq

/-- `ConnectAction`: the action tag. The `Hijack` callback and `TLSConfig`
factory fields are functions not inspected by any claim and are omitted. -/
structure ConnectAction where
  action : ConnectActionLiteral
deriving DecidableEq

def OkConnect : ConnectAction := ⟨.connectAccept⟩
def MitmConnect : ConnectAction := ⟨.connectMitm⟩
def HTTPMitmConnect : ConnectAction := ⟨.connectHTTPMitm⟩
def RejectConnect : ConnectAction := ⟨.connectReject⟩

/-- An `HTTPSHandler` (shape of `HandleConnect` in the CONNECT loop): given
the current request and the current host it returns a possibly-replaced
request and, when it does not decline, an `(action, host)` pair. Declining is
Go's `nil` action, modelled as `none`. -/
abbrev HTTPSHandler := Request → String → Request × Option (ConnectAction × String)

/-- The CONNECT handler loop of `handleHttps`: walk the handlers carrying the
current request; a handler returning a non-`none` action breaks the loop with
its `(action, host)`; a declining handler only replaces the request. `todo`
and `host` are the loop state initialised before the loop. -/
def handleConnectLoop : List HTTPSHandler → Request → ConnectAction → String →
    Request × ConnectAction × String
  | [], r, todo, host => (r, todo, host)
  | h :: hs, r, todo, host =>
    match h r host with
    | (req, some (newtodo, newhost)) => (req, newtodo, newhost)
    | (req, none) => handleConnectLoop hs req todo host

/-- Entry of the CONNECT dispatch: `todo, host := OkConnect, r.URL.Host`
before the loop over the registered handlers. -/
def handleHttpsDispatch (handlers : List HTTPSHandler) (r : Request) :
    Request × ConnectAction × String :=
  handleConnectLoop handlers r OkConnect r.url.host

theorem handleConnectLoop_all_decline (hs : List HTTPSHandler)
    (hdec : ∀ g ∈ hs, ∀ r' host', (g r' host').2 = none) :
    ∀ r todo host, (handleConnectLoop hs r todo host).2 = (todo, host) := by
  induction hs with
  | nil => intro r todo host; rfl
  | cons g gs ih =>
    intro r todo host
    have hg := hdec g (by simp) r host
    have hmk : g r host = ((g r host).1, none) := by
      cases hgv : g r host with
      | mk a b => rw [hgv] at hg; simpa using hg.symm ▸ rfl
    rw [handleConnectLoop, hmk]
    exact ih (fun g' hg' => hdec g' (by simp [hg'])) (g r host).1 todo host

theorem handleConnectLoop_skip_decline (pre : List HTTPSHandler)
    (hdec : ∀ g ∈ pre, ∀ r' host', (g r' host').2 = none) (r : Request) (host : String) :
    ∃ r', ∀ (hs : List HTTPSHandler) (todo : ConnectAction),
      handleConnectLoop (pre ++ hs) r todo host = handleConnectLoop hs r' todo host := by
  induction pre generalizing r with
  | nil => exact ⟨r, fun hs todo => rfl⟩
  | cons g gs ih =>
    have hg := hdec g (by simp) r host
    have hmk : g r host = ((g r host).1, none) := by
      cases hgv : g r host with
      | mk a b => rw [hgv] at hg; simpa using hg.symm ▸ rfl
    obtain ⟨r', hr'⟩ := ih (fun g' hg' => hdec g' (by simp [hg'])) (g r host).1
    refine ⟨r', fun hs todo => ?_⟩
    rw [List.cons_append, handleConnectLoop, hmk]
    exact hr' hs todo

/-- C1: the CONNECT dispatch of `handleHttps`. (i) If every registered
CONNECT handler declines (returns a `nil` action), the dispatched pair is the
default `(OkConnect, originalURLHost)`. (ii) If all handlers before `h`
decline and `h` answers `(a, nh)`, then `(a, nh)` is dispatched, whatever
handlers follow `h` — the iteration stops at the first non-declining
handler, in registration order. -/
theorem connect_dispatch_spec (pre post : List HTTPSHandler) (h : HTTPSHandler)
    (r : Request) (a : ConnectAction) (nh : String) :
    ((∀ g ∈ pre ++ h :: post, ∀ r' host', (g r' host').2 = none) →
      (handleHttpsDispatch (pre ++ h :: post) r).2 = (OkConnect, r.url.host))
    ∧ ((∀ g ∈ pre, ∀ r' host', (g r' host').2 = none) →
       (∀ r' host', (h r' host').2 = some (a, nh)) →
      (handleHttpsDispatch (pre ++ h :: post) r).2 = (a, nh)) := by
  constructor
  · intro hdec
    exact handleConnectLoop_all_decline _ hdec r OkConnect r.url.host
  · intro hdec hwin
    obtain ⟨r', hr'⟩ := handleConnectLoop_skip_decline pre hdec r r.url.host
    unfold handleHttpsDispatch
    rw [hr' (h :: post) OkConnect]
    have hh := hwin r' r.url.host
    have hmk : h r' r.url.host = ((h r' r.url.host).1, some (a, nh)) := by
      cases hgv : h r' r.url.host with
      | mk x b => rw [hgv] at hh; simpa using hh.symm ▸ rfl
    rw [handleConnectLoop, hmk]

/-- A CONNECT handler that always declines (used by witnesses). -/
def declineHandler : HTTPSHandler := fun r _ => (r, none)

/-- A CONNECT handler answering `(RejectConnect, "blocked:443")`. -/
def rejectHandler : HTTPSHandler := fun r _ => (r, some (RejectConnect, "blocked:443"))

/-- A CONNECT handler answering `(MitmConnect, "late")`, registered after
`rejectHandler` in the witness to show it never runs. -/
def lateMitmHandler : HTTPSHandler := fun r _ => (r, some (MitmConnect, "late"))

/-- A concrete CONNECT request to `example.com:443`. -/
def connectReq : Request :=
  { url := { scheme := "", host := "example.com:443", path := "", query := "" },
    host := "example.com:443", remoteAddr := "10.0.0.1:5000" }

/-- Witness for C1: with one declining handler the default
`(OkConnect, "example.com:443")` is dispatched; with
`[decline, reject, mitm]` the first non-declining handler's
`(RejectConnect, "blocked:443")` wins. -/
theorem connect_dispatch_spec_witness :
    (handleHttpsDispatch [declineHandler] connectReq).2 = (OkConnect, "example.com:443")
    ∧ (handleHttpsDispatch [declineHandler, rejectHandler, lateMitmHandler] connectReq).2
        = (RejectConnect, "blocked:443") := by
  constructor
  · exact (connect_dispatch_spec [] [] declineHandler connectReq OkConnect "").1
      (by intro g hg r' host'; simp only [List.nil_append, List.mem_singleton] at hg; subst hg; rfl)
  · exact (connect_dispatch_spec [declineHandler] [lateMitmHandler] rejectHandler
      connectReq RejectConnect "blocked:443").2
      (by intro g hg r' host'; simp only [List.mem_singleton] at hg; subst hg; rfl)
      (fun _ _ => rfl)

/-! ## Request filter chains (C2) -/

/-- A request handler of the one-argument `filterRequest` variant: yields a
(possibly replaced) request and an optional canned response. -/
abbrev ReqHandler := Request → Request × Option Response

/-- A request handler of the context-threading `filterRequest` variant
(`Handle(req, ctx) → (req, resp, ctx)`), over an abstract context type. -/
abbrev ReqHandlerCtx (Ctx : Type) := Request → Ctx → Request × Option Response × Ctx

/-- The one-argument `filterRequest`: each handler receives the request
returned by the previous one (`req, resp = h.Handle(req)`); a non-`nil`
response breaks the loop. -/
def filterRequest : List ReqHandler → Request → Request × Option Response
  | [], req => (req, none)
  | h :: hs, req =>
    match h req with
    | (req2, some resp) => (req2, some resp)
    | (req2, none) => filterRequest hs req2

/-- The context-threading `filterRequest` variant: the loop body is
`req, resp, ctx = h.Handle(r, ctx)` — every handler is invoked on `r`, the
request the chain was entered with, while `req` only records the latest
handler's output. `r` is the pinned original, `req` the running output. -/
def filterRequestCtx {Ctx : Type} :
    List (ReqHandlerCtx Ctx) → Request → Request → Ctx → Request × Option Response
  | [], _, req, _ => (req, none)
  | h :: hs, r, _req, ctx =>
    -- the running output `_req` is overwritten, never read: the loop body
    -- passes `r`, not the previous handler's output, to the next handler
    match h r ctx with
    | (req2, some resp, _) => (req2, some resp)
    | (req2, none, ctx2) => filterRequestCtx hs r req2 ctx2

/-- The plain-path engine step around `filterRequest`: a canned response
short-circuits the round-trip (the Boolean records whether the round-tripper
was invoked). -/
def engineResponse (handlers : List ReqHandler) (rt : Request → Response)
    (r : Request) : Request × Response × Bool :=
  match filterRequest handlers r with
  | (req, some resp) => (req, resp, false)
  | (req, none) => (req, rt req, true)

/-- The same engine step over the context-threading `filterRequest` variant
(`r, resp := proxy.filterRequest(r, ctx); if resp == nil { ... RoundTrip ... }`):
a canned response short-circuits the round-trip. -/
def engineResponseCtx {Ctx : Type} (handlers : List (ReqHandlerCtx Ctx))
    (rt : Request → Response) (r : Request) (ctx : Ctx) :
    Request × Response × Bool :=
  match filterRequestCtx handlers r r ctx with
  | (req, some resp) => (req, resp, false)
  | (req, none) => (req, rt req, true)

/-- A concrete incoming request with path `/orig`. -/
def c2OrigReq : Request :=
  { url := { scheme := "http", host := "h.example", path := "/orig", query := "" },
    host := "h.example", remoteAddr := "10.0.0.1:5000" }

/-- A request handler that rewrites the URL path to `/h1` and declines to
answer (no canned response). -/
def c2Rewriter : ReqHandlerCtx Unit := fun r u =>
  ({ r with url := { r.url with path := "/h1" } }, none, u)

/-- A request handler that returns a canned response recording the URL path
of the request it was invoked on. -/
def c2Observer : ReqHandlerCtx Unit := fun r u =>
  (r, some { status := r.url.path, statusCode := 200, header := [], body := "" }, u)

/-- C2 counterexample: in the context-threading `filterRequest`, the first
handler rewrites the path to `/h1`, yet the second handler observes the
original path `/orig` — it did not receive the request produced by the
previous handler, contradicting the claim. -/
theorem filterRequest_chain_cex :
    (c2Rewriter c2OrigReq ()).1.url.path = "/h1"
    ∧ ((filterRequestCtx [c2Rewriter, c2Observer] c2OrigReq c2OrigReq ()).2.map
        Response.status) = some "/orig"
    ∧ "/orig" ≠ "/h1" :=
  ⟨rfl, rfl, by decide⟩

/-- C2 as amended: in the one-argument `filterRequest`, a declining handler
passes its (possibly replaced) request on to the rest of the chain, and a
handler returning a canned response stops the chain — whatever handlers
follow — and makes the engine skip the round-trip, returning that response.
In the context-threading variant the same short-circuit holds (a handler
returning a canned response stops the chain regardless of the handlers after
it, and the engine skips the round-trip), but a declining handler hands the
rest of the chain its own output while the next handler is still invoked on
the pinned original request `r`. -/
theorem filterRequest_chain_spec {Ctx : Type}
    (h : ReqHandler) (hs : List ReqHandler) (g : ReqHandlerCtx Ctx)
    (gs : List (ReqHandlerCtx Ctx)) (req r rp : Request) (ctx : Ctx)
    (rt : Request → Response) (resp : Response) :
    ((h req).2 = none → filterRequest (h :: hs) req = filterRequest hs (h req).1)
    ∧ ((h req).2 = some resp →
        filterRequest (h :: hs) req = ((h req).1, some resp)
        ∧ engineResponse (h :: hs) rt req = ((h req).1, resp, false))
    ∧ ((g r ctx).2.1 = none →
        filterRequestCtx (g :: gs) r rp ctx
          = filterRequestCtx gs r (g r ctx).1 (g r ctx).2.2)
    ∧ ((g r ctx).2.1 = some resp →
        filterRequestCtx (g :: gs) r rp ctx = ((g r ctx).1, some resp)
        ∧ engineResponseCtx (g :: gs) rt r ctx = ((g r ctx).1, resp, false)) := by
  refine ⟨?_, ?_, ?_, ?_⟩
  · intro hnone
    cases hv : h req with
    | mk a b =>
      rw [hv] at hnone
      simp only at hnone
      subst hnone
      simp [filterRequest, hv]
  · intro hsome
    cases hv : h req with
    | mk a b =>
      rw [hv] at hsome
      simp only at hsome
      subst hsome
      constructor
      · simp [filterRequest, hv]
      · simp [engineResponse, filterRequest, hv]
  · intro hnone
    cases hv : g r ctx with
    | mk a bc =>
      cases bc with
      | mk b c =>
        rw [hv] at hnone
        simp only at hnone
        subst hnone
        simp [filterRequestCtx, hv]
  · intro hsome
    cases hv : g r ctx with
    | mk a bc =>
      cases bc with
      | mk b c =>
        rw [hv] at hsome
        simp only at hsome
        subst hsome
        constructor
        · simp [filterRequestCtx, hv]
        · simp [engineResponseCtx, filterRequestCtx, hv]

/-- A declining path-rewriting handler for the C2 witness. -/
def c2RewriterPlain : ReqHandler := fun r =>
  ({ r with url := { r.url with path := "/w" } }, none)

/-- The canned response used by the C2 witness. -/
def c2CannedResp : Response :=
  { status := "403 Forbidden", statusCode := 403, header := [], body := "Blocked" }

/-- A handler answering the canned response, for the C2 witness. -/
def c2CannedHandler : ReqHandler := fun r => (r, some c2CannedResp)

/-- A declining context-threading handler for the C2 witness. -/
def c2CtxDecline : ReqHandlerCtx Unit := fun r u => (r, none, u)

/-- A context-threading handler answering the canned response, placed before
a further handler in the C2 witness to show the chain stops at it. -/
def c2CtxCanned : ReqHandlerCtx Unit := fun r u => (r, some c2CannedResp, u)

/-- Witness for C2 (amended): each branch of the amended theorem applied at
concrete handlers and requests; in the last branch the canned handler is
followed by another handler, which never runs. -/
theorem filterRequest_chain_spec_witness :
    filterRequest [c2RewriterPlain] c2OrigReq
        = filterRequest [] (c2RewriterPlain c2OrigReq).1
    ∧ engineResponse [c2CannedHandler] (fun _ => c2CannedResp) c2OrigReq
        = ((c2CannedHandler c2OrigReq).1, c2CannedResp, false)
    ∧ filterRequestCtx ([c2CtxDecline] : List (ReqHandlerCtx Unit)) c2OrigReq c2OrigReq ()
        = filterRequestCtx [] c2OrigReq (c2CtxDecline c2OrigReq ()).1 ()
    ∧ filterRequestCtx [c2CtxCanned, c2CtxDecline] c2OrigReq c2OrigReq ()
        = ((c2CtxCanned c2OrigReq ()).1, some c2CannedResp)
    ∧ engineResponseCtx [c2CtxCanned, c2CtxDecline] (fun _ => c2CannedResp) c2OrigReq ()
        = ((c2CtxCanned c2OrigReq ()).1, c2CannedResp, false) := by
  refine ⟨?_, ?_, ?_, ?_, ?_⟩
  · exact (filterRequest_chain_spec c2RewriterPlain [] c2CtxDecline []
      c2OrigReq c2OrigReq c2OrigReq () (fun _ => c2CannedResp) c2CannedResp).1 rfl
  · exact ((filterRequest_chain_spec c2CannedHandler [] c2CtxDecline []
      c2OrigReq c2OrigReq c2OrigReq () (fun _ => c2CannedResp) c2CannedResp).2.1 rfl).2
  · exact (filterRequest_chain_spec c2CannedHandler [] c2CtxDecline []
      c2OrigReq c2OrigReq c2OrigReq () (fun _ => c2CannedResp) c2CannedResp).2.2.1 rfl
  · exact ((filterRequest_chain_spec c2CannedHandler [] c2CtxCanned [c2CtxDecline]
      c2OrigReq c2OrigReq c2OrigReq () (fun _ => c2CannedResp) c2CannedResp).2.2.2 rfl).1
  · exact ((filterRequest_chain_spec c2CannedHandler [] c2CtxCanned [c2CtxDecline]
      c2OrigReq c2OrigReq c2OrigReq () (fun _ => c2CannedResp) c2CannedResp).2.2.2 rfl).2

/-! ## TLS-MITM response framing (C3) -/

/-- Go `strings.HasPrefix`. -/
def strHasPrefix (p s : String) : Bool := p.data.isPrefixOf s.data

/-- The status line written by the TLS-MITM loop: strip the numeric code
from `resp.Status` when it is a prefix, then emit
`"HTTP/1.1" ++ " " ++ code ++ " " ++ text ++ CRLF` (the source comment:
"always use 1.1 to support chunked encoding"). -/
def mitmStatusLine (resp : Response) : String :=
  let text := resp.status
  let statusCode := toString resp.statusCode ++ " "
  let text2 := if strHasPrefix statusCode text
    then ⟨text.data.drop statusCode.data.length⟩ else text
  "HTTP/1.1" ++ " " ++ statusCode ++ text2 ++ "\r\n"

/-- The header rewrite the TLS-MITM loop performs before writing headers:
`Del("Content-Length")`, `Set("Transfer-Encoding", "chunked")`,
`Set("Connection", "close")`. -/
def mitmWriteHeader (h : Header) : Header :=
  hSet "Connection" "close" (hSet "Transfer-Encoding" "chunked" (hDel "Content-Length" h))

/-- C3: for every response the TLS-MITM loop writes, the status line begins
with `HTTP/1.1`, `Content-Length` is absent, `Transfer-Encoding` is exactly
`chunked`, and `Connection` is exactly `close` — whatever the origin or the
handlers produced. -/
theorem mitm_response_framing (resp : Response) :
    (∃ rest, mitmStatusLine resp = "HTTP/1.1" ++ rest)
    ∧ hGet "Content-Length" (mitmWriteHeader resp.header) = none
    ∧ hGet "Transfer-Encoding" (mitmWriteHeader resp.header) = some ["chunked"]
    ∧ hGet "Connection" (mitmWriteHeader resp.header) = some ["close"] := by
  refine ⟨?_, ?_, ?_, ?_⟩
  · have hassoc : ∀ b c d : String,
        "HTTP/1.1" ++ b ++ c ++ d = "HTTP/1.1" ++ (b ++ (c ++ d)) := by
      intro b c d
      rw [String.append_assoc, String.append_assoc]
    exact ⟨_, hassoc " " _ _⟩
  · rw [mitmWriteHeader, hGet_hSet_ne _ _ _ (by decide), hGet_hSet_ne _ _ _ (by decide),
      hGet_hDel_self]
  · rw [mitmWriteHeader, hGet_hSet_ne _ _ _ (by decide), hGet_hSet_self]
  · rw [mitmWriteHeader, hGet_hSet_self]

/-! ## Predicate-guarded handler wrappers (C4) -/

/-- Go `RespCondition` as a function: a boolean test over the request and
the (possibly absent) response. -/
abbrev RespCondition := Request → Option Response → Bool

/-- A response handler: `Handle(req, resp) → (req, resp)`. -/
abbrev RespHandler := Request → Option Response → Request × Option Response

/-- `ReqProxyConds.Do`'s registered wrapper: evaluate the aggregated request
conditions in order; the first failing condition returns `(r, nil)` without
invoking the wrapped handler; otherwise run `h.Handle(r)`. -/
def reqCondsWrapper : List ReqConditionFunc → ReqHandler → Request →
    Request × Option Response
  | [], h, r => h r
  | c :: cs, h, r => if c r then reqCondsWrapper cs h r else (r, none)

/-- The response-condition phase of `ProxyConds.Do`'s wrapper: the first
failing response condition returns the `(req, resp)` pair untouched. -/
def respCondsPhase : List RespCondition → RespHandler → Request →
    Option Response → Request × Option Response
  | [], h, r, resp => h r resp
  | c :: cs, h, r, resp => if c r resp then respCondsPhase cs h r resp else (r, resp)

/-- `ProxyConds.Do`'s registered wrapper: request conditions first, then
response conditions; any failure passes `(req, resp)` through untouched. -/
def respCondsWrapper : List ReqConditionFunc → List RespCondition → RespHandler →
    Request → Option Response → Request × Option Response
  | [], rcs, h, r, resp => respCondsPhase rcs h r resp
  | c :: cs, rcs, h, r, resp =>
    if c r then respCondsWrapper cs rcs h r resp else (r, resp)

theorem respCondsPhase_eq (rcs : List RespCondition) (h : RespHandler)
    (r : Request) (resp : Option Response) :
    respCondsPhase rcs h r resp
      = if rcs.all (fun c => c r resp) then h r resp else (r, resp) := by
  induction rcs with
  | nil => simp [respCondsPhase]
  | cons c cs ih =>
    by_cases hc : c r resp
    · simp [respCondsPhase, hc, ih]
    · simp [respCondsPhase, hc]

/-- C4: the registered wrappers re-evaluate the guard predicates on each
dispatch; when some predicate fails, the wrapped handler is not invoked and
the wrapper returns exactly the pair it was given (`(r, nil)` for request
wrappers, `(req, resp)` for response wrappers); when all predicates hold,
the wrapper returns the inner handler's output. -/
theorem guard_wrapper_spec (cs : List ReqConditionFunc) (rcs : List RespCondition)
    (h : ReqHandler) (hr : RespHandler) (r : Request) (resp : Option Response) :
    reqCondsWrapper cs h r = (if cs.all (fun c => c r) then h r else (r, none))
    ∧ respCondsWrapper cs rcs hr r resp
        = (if cs.all (fun c => c r) && rcs.all (fun c => c r resp)
            then hr r resp else (r, resp)) := by
  constructor
  · induction cs with
    | nil => simp [reqCondsWrapper]
    | cons c cs ih =>
      by_cases hc : c r
      · simp [reqCondsWrapper, hc, ih]
      · simp [reqCondsWrapper, hc]
  · induction cs with
    | nil => simp [respCondsWrapper, respCondsPhase_eq]
    | cons c cs ih =>
      by_cases hc : c r
      · simp [respCondsWrapper, hc, ih]
      · simp [respCondsWrapper, hc]

/-! ## CONNECT Accept branch (C5) -/

/-- The regexp `hasPort = :\d+$` applied to a string: the string ends in a
colon followed by one or more digits. Decided by scanning from the end:
take the maximal digit suffix; it must be nonempty and be preceded by `:`. -/
def hasPortMatch (s : String) : Bool :=
  let rev := s.data.reverse
  let ds := rev.takeWhile Char.isDigit
  !ds.isEmpty && decide ((rev.drop ds.length).head? = some ':')

theorem takeWhile_append_not (p : Char → Bool) (l1 l2 : List Char) (x : Char)
    (h1 : ∀ a ∈ l1, p a = true) (hx : p x = false) :
    (l1 ++ x :: l2).takeWhile p = l1 := by
  induction l1 with
  | nil => simp [List.takeWhile_cons, hx]
  | cons a as ih =>
    simp [List.takeWhile_cons, h1 a (by simp),
      ih (fun b hb => h1 b (by simp [hb]))]

theorem drop_takeWhile_length (p : Char → Bool) (l : List Char) :
    l.drop (l.takeWhile p).length = l.dropWhile p := by
  induction l with
  | nil => rfl
  | cons a as ih =>
    by_cases h : p a
    · simp [List.takeWhile_cons, List.dropWhile_cons, h, ih]
    · simp [List.takeWhile_cons, List.dropWhile_cons, h]

theorem hasPortMatch_iff (s : String) :
    hasPortMatch s = true
      ↔ ∃ t ds, s.data = t ++ ':' :: ds ∧ ds ≠ [] ∧ ∀ c ∈ ds, c.isDigit = true := by
  unfold hasPortMatch
  constructor
  · intro hm
    simp only [Bool.and_eq_true, Bool.not_eq_true', List.isEmpty_eq_false,
      decide_eq_true_eq] at hm
    obtain ⟨hne, hhead⟩ := hm
    rw [drop_takeWhile_length] at hhead
    cases hdw : s.data.reverse.dropWhile Char.isDigit with
    | nil => rw [hdw] at hhead; simp at hhead
    | cons a rest =>
      rw [hdw] at hhead
      simp only [List.head?_cons, Option.some.injEq] at hhead
      subst hhead
      refine ⟨rest.reverse, (s.data.reverse.takeWhile Char.isDigit).reverse, ?_, ?_, ?_⟩
      · have hrev : s.data.reverse
            = s.data.reverse.takeWhile Char.isDigit ++ ':' :: rest := by
          conv_lhs =>
            rw [← List.takeWhile_append_dropWhile (p := Char.isDigit) (l := s.data.reverse)]
          rw [hdw]
        calc s.data = s.data.reverse.reverse := (List.reverse_reverse _).symm
          _ = (s.data.reverse.takeWhile Char.isDigit ++ ':' :: rest).reverse := by rw [← hrev]
          _ = rest.reverse ++ ':' :: (s.data.reverse.takeWhile Char.isDigit).reverse := by
            simp [List.reverse_append, List.reverse_cons, List.append_assoc]
      · simpa using hne
      · intro c hc
        exact List.mem_takeWhile_imp (by simpa using hc)
  · rintro ⟨t, ds, hdata, hne, hdig⟩
    have hrev : s.data.reverse = ds.reverse ++ ':' :: t.reverse := by
      rw [hdata]
      simp [List.reverse_append, List.reverse_cons, List.append_assoc]
    have htw : s.data.reverse.takeWhile Char.isDigit = ds.reverse := by
      rw [hrev]
      exact takeWhile_append_not _ _ _ _ (fun a ha => hdig a (by simpa using ha)) (by decide)
    have hdrop : s.data.reverse.drop (s.data.reverse.takeWhile Char.isDigit).length
        = ':' :: t.reverse := by
      rw [htw, hrev, List.drop_left]
    simp only [Bool.and_eq_true, Bool.not_eq_true', List.isEmpty_eq_false,
      decide_eq_true_eq]
    exact ⟨by simpa [htw] using hne, by rw [hdrop]; rfl⟩

/-- The trace of the hijacked client connection: byte strings written to it,
whether it has been closed, and whether the bidirectional splice between the
client and the target was started. -/
structure ClientTrace where
  writes : List String
  closed : Bool
  spliced : Bool
deriving DecidableEq

/-- `httpError`: write `"HTTP/1.1 502 Bad Gateway\r\n\r\n"` to the client
and close it. -/
def httpError (t : ClientTrace) : ClientTrace :=
  { t with writes := t.writes ++ ["HTTP/1.1 502 Bad Gateway\r\n\r\n"], closed := true }

/-- The `ConnectAccept` branch of `handleHttps`: default the port to `:80`
when the host does not match `:\d+$`, dial it (`dialOk` is the dial oracle),
answer `502` via `httpError` on failure, else write the `200 OK` line and
start the splice. Returns the dialed address and the client trace. -/
def connectAccept (dialOk : String → Bool) (host : String) : String × ClientTrace :=
  let host := if hasPortMatch host then host else host ++ ":80"
  if dialOk host then
    (host, { writes := ["HTTP/1.0 200 OK\r\n\r\n"], closed := false, spliced := true })
  else
    (host, httpError { writes := [], closed := false, spliced := false })

theorem connectAccept_fst (dialOk : String → Bool) (host : String) :
    (connectAccept dialOk host).1
      = if hasPortMatch host then host else host ++ ":80" := by
  unfold connectAccept
  by_cases hd : dialOk (if hasPortMatch host then host else host ++ ":80") <;> simp [hd]

/-- C5: in the Accept branch, `:80` is appended exactly when the chosen host
does not end in a colon followed by digits; a failed dial writes exactly the
bodyless `502` response and closes the client without splicing; a successful
dial writes exactly `HTTP/1.0 200 OK\r\n\r\n` and splices. -/
theorem connect_accept_spec (dialOk : String → Bool) (host : String) :
    (hasPortMatch host = true
      ↔ ∃ t ds, host.data = t ++ ':' :: ds ∧ ds ≠ [] ∧ ∀ c ∈ ds, c.isDigit = true)
    ∧ (connectAccept dialOk host).1 = (if hasPortMatch host then host else host ++ ":80")
    ∧ (dialOk (connectAccept dialOk host).1 = false →
        (connectAccept dialOk host).2
          = ⟨["HTTP/1.1 502 Bad Gateway\r\n\r\n"], true, false⟩)
    ∧ (dialOk (connectAccept dialOk host).1 = true →
        (connectAccept dialOk host).2
          = ⟨["HTTP/1.0 200 OK\r\n\r\n"], false, true⟩) := by
  refine ⟨hasPortMatch_iff host, connectAccept_fst dialOk host, ?_, ?_⟩
  · intro hfail
    rw [connectAccept_fst] at hfail
    unfold connectAccept
    simp [hfail, httpError]
  · intro hok
    rw [connectAccept_fst] at hok
    unfold connectAccept
    simp [hok]

/-- Witness for C5: a failed dial of `example.com:80` (port defaulted from
`example.com`) yields exactly the 502 write and a close; a successful dial
of `example.com:443` yields exactly the 200 write and a splice. -/
theorem connect_accept_spec_witness :
    (connectAccept (fun _ => false) "example.com").2
        = ⟨["HTTP/1.1 502 Bad Gateway\r\n\r\n"], true, false⟩
    ∧ (connectAccept (fun _ => true) "example.com:443").2
        = ⟨["HTTP/1.0 200 OK\r\n\r\n"], false, true⟩ := by
  constructor
  · exact (connect_accept_spec (fun _ => false) "example.com").2.2.1 rfl
  · exact (connect_accept_spec (fun _ => true) "example.com:443").2.2.2 rfl

/-! ## CONNECT Reject branch (C6)

The request context's response slot is `Option (Option Response)`: `none`
models a context in which no response value was ever stored (`ctxKeyResp`
absent), `some none` a stored typed-nil `*http.Response`, and
`some (some resp)` a stored response. A Go panic is `Except.error`. -/

/-- `CtxResp` from `ctx.go`: the type assertion on the context value panics
with "required value in context missing" when no response value is stored;
a stored value (nil or not) is returned. -/
def CtxResp : Option (Option Response) → Except String (Option Response)
  | none => .error "required value in context missing"
  | some v => .ok v

/-- Trace of the Reject branch: the responses written verbatim to the
hijacked client, whether the client was closed, and whether the destination
was dialed. -/
structure RejectTrace where
  writes : List Response
  closed : Bool
  dialed : Bool
deriving DecidableEq

/-- The `ConnectReject` branch of `handleHttps`:
`if CtxResp(r.Context()) != nil { CtxResp(r.Context()).Write(proxyClient) };
proxyClient.Close()`. The branch contains no dial. -/
def connectReject (slot : Option (Option Response)) : Except String RejectTrace :=
  match CtxResp slot with
  | .error e => .error e
  | .ok (some resp) => .ok { writes := [resp], closed := true, dialed := false }
  | .ok none => .ok { writes := [], closed := true, dialed := false }

/-- C6: the Reject branch never dials and, when a response value is stored
in the context, writes it (when non-nil) and closes the client; but when no
response value was ever stored — the ordinary case, e.g. `AlwaysReject`
with no handler calling `CtxWithResp` — `CtxResp` panics before the client
is closed, contrary to the claim that the connection is closed in every
case. -/
theorem connect_reject_panics_when_resp_missing :
    connectReject none = .error "required value in context missing"
    ∧ (∀ resp, connectReject (some (some resp))
        = .ok { writes := [resp], closed := true, dialed := false })
    ∧ connectReject (some none) = .ok { writes := [], closed := true, dialed := false } :=
  ⟨rfl, fun _ => rfl, rfl⟩

/-! ## TLS-MITM inner URL rewrite (C7) -/

/-- The regexp `httpsRegexp = ^https:\/\/` applied to a string. -/
def httpsRegexpMatch (s : String) : Bool := "https://".data.isPrefixOf s.data

/-- The URL rewrite in the TLS-MITM loop, at the level of the URL string the
code builds and reparses: when `req.URL.String()` does not match
`^https://`, the new URL is parsed from
`"https://" + r.Host + req.URL.String()`; otherwise the URL is untouched. -/
def mitmRewriteURL (outerHost : String) (u : URL) : String :=
  if httpsRegexpMatch u.render then u.render
  else "https://" ++ outerHost ++ u.render

/-- The inner request URL of the C7 counterexample: Go's `http.ReadRequest`
parses the origin-form request-target `/search?q=1` into a URL with empty
scheme (so `IsAbs()` is false), empty host, path `/search` and raw query
`q=1`; its `String()` is `/search?q=1`. -/
def c7InnerURL : URL := { scheme := "", host := "", path := "/search", query := "q=1" }

/-- C7 counterexample: for the non-absolute inner URL `/search?q=1` under
outer CONNECT host `outer.example:443`, the code builds the new URL from
`req.URL.String()` and produces `https://outer.example:443/search?q=1`, not
`https://<outerHost><path>` = `https://outer.example:443/search` as the
claim states. -/
theorem mitm_rewrite_cex :
    c7InnerURL.isAbs = false
    ∧ httpsRegexpMatch c7InnerURL.render = false
    ∧ mitmRewriteURL "outer.example:443" c7InnerURL
        = "https://outer.example:443/search?q=1"
    ∧ "https://outer.example:443/search?q=1"
        ≠ "https://" ++ "outer.example:443" ++ c7InnerURL.path := by
  refine ⟨rfl, by decide, by decide, by decide⟩

/-- C7 as amended: an inner URL whose serialized form does not start with
`https://` (in particular every non-absolute URL) is rewritten to
`https://` ++ outer Host ++ its serialized form — which equals
`https://<outerHost><path>` exactly for query-less origin-form URLs
(empty scheme and authority); a URL already starting with `https://` is
left unchanged. -/
theorem mitm_rewrite_spec (outerHost : String) (u : URL) :
    (httpsRegexpMatch u.render = false →
      mitmRewriteURL outerHost u = "https://" ++ outerHost ++ u.render)
    ∧ (httpsRegexpMatch u.render = true → mitmRewriteURL outerHost u = u.render)
    ∧ (u.scheme = "" → u.host = "" → u.query = "" → u.render = u.path) := by
  refine ⟨?_, ?_, ?_⟩
  · intro hm
    simp [mitmRewriteURL, hm]
  · intro hm
    simp [mitmRewriteURL, hm]
  · intro hs hh hq
    simp [URL.render, hs, hh, hq]

/-- An origin-form inner URL (`GET /p HTTP/1.1` inside the tunnel). -/
def c7OriginURL : URL := { scheme := "", host := "", path := "/p", query := "" }

/-- An already-`https` inner URL. -/
def c7HttpsURL : URL := { scheme := "https", host := "h.example", path := "/p", query := "" }

/-- Witness for C7 (amended): the origin-form URL `/p` is rewritten to
`https://outer.example:443/p`; an `https://` URL is untouched. -/
theorem mitm_rewrite_spec_witness :
    mitmRewriteURL "outer.example:443" c7OriginURL
        = "https://" ++ "outer.example:443" ++ c7OriginURL.render
    ∧ mitmRewriteURL "outer.example:443" c7HttpsURL = c7HttpsURL.render
    ∧ c7OriginURL.render = c7OriginURL.path := by
  refine ⟨?_, ?_, ?_⟩
  · exact (mitm_rewrite_spec "outer.example:443" c7OriginURL).1 (by decide)
  · exact (mitm_rewrite_spec "outer.example:443" c7HttpsURL).2.1 (by decide)
  · exact (mitm_rewrite_spec "outer.example:443" c7OriginURL).2.2 rfl rfl rfl

/-! ## IsLocalHost (C8) -/

/-- A match of the regexp `127\.0\.0\.\d+` starting at the head of `l`:
the literal prefix `127.0.0.` followed by at least one digit. -/
def localHostIpv4At (l : List Char) : Bool :=
  "127.0.0.".data.isPrefixOf l &&
    (match l.drop 8 with
      | c :: _ => c.isDigit
      | [] => false)

/-- Unanchored search of `127\.0\.0\.\d+` (Go `MatchString`): a match may
start at any position. -/
def localHostIpv4Search : List Char → Bool
  | [] => false
  | c :: cs => localHostIpv4At (c :: cs) || localHostIpv4Search cs

/-- `IsLocalHost` from `actions.go`: destination host equal to `::1`,
`0:0:0:0:0:0:0:1` or `localhost`, or containing a substring matching
`127\.0\.0\.\d+`. -/
def IsLocalHost (req : Request) : Bool :=
  req.url.host == "::1" || req.url.host == "0:0:0:0:0:0:0:1"
    || localHostIpv4Search req.url.host.data || req.url.host == "localhost"

theorem localHostIpv4At_iff (l : List Char) :
    localHostIpv4At l = true
      ↔ ∃ d post, l = "127.0.0.".data ++ d :: post ∧ d.isDigit = true := by
  unfold localHostIpv4At
  constructor
  · intro hm
    simp only [Bool.and_eq_true] at hm
    obtain ⟨hpre, hrest⟩ := hm
    have hp : "127.0.0.".data <+: l := (List.isPrefixOf_iff_prefix).1 hpre
    obtain ⟨t, ht⟩ := hp
    have hdrop : l.drop 8 = t := by
      rw [← ht]
      exact List.drop_left "127.0.0.".data t
    rw [hdrop] at hrest
    cases t with
    | nil => simp at hrest
    | cons d post =>
      simp only at hrest
      exact ⟨d, post, ht.symm, hrest⟩
  · rintro ⟨d, post, hl, hd⟩
    subst hl
    have hpre : "127.0.0.".data.isPrefixOf ("127.0.0.".data ++ d :: post) = true :=
      (List.isPrefixOf_iff_prefix).2 ⟨d :: post, rfl⟩
    have hdrop : ("127.0.0.".data ++ d :: post).drop 8 = d :: post :=
      List.drop_left "127.0.0.".data (d :: post)
    simp only [Bool.and_eq_true, hpre, hdrop, true_and]
    exact hd

theorem localHostIpv4Search_iff (l : List Char) :
    localHostIpv4Search l = true
      ↔ ∃ pre d post, l = pre ++ "127.0.0.".data ++ d :: post ∧ d.isDigit = true := by
  induction l with
  | nil =>
    simp only [localHostIpv4Search]
    constructor
    · intro h
      simp at h
    · rintro ⟨pre, d, post, hl, -⟩
      simp at hl
  | cons c cs ih =>
    simp only [localHostIpv4Search, Bool.or_eq_true, localHostIpv4At_iff, ih]
    constructor
    · rintro (⟨d, post, hl, hd⟩ | ⟨pre, d, post, hl, hd⟩)
      · exact ⟨[], d, post, by simpa using hl, hd⟩
      · exact ⟨c :: pre, d, post, by simp [hl], hd⟩
    · rintro ⟨pre, d, post, hl, hd⟩
      cases pre with
      | nil =>
        left
        exact ⟨d, post, by simpa using hl, hd⟩
      | cons p ps =>
        right
        simp only [List.cons_append] at hl
        injection hl with h1 h2
        exact ⟨ps, d, post, h2, hd⟩

/-- The spec's reading of "local": exact `::1`, `0:0:0:0:0:0:0:1`,
`localhost`, or an IPv4 address in `127.0.0.0/8`. -/
def c8Addr1 : Request :=
  { url := { scheme := "https", host := "127.1.2.3", path := "", query := "" },
    host := "127.1.2.3", remoteAddr := "" }

/-- A non-local host merely containing the substring `127.0.0.1`. -/
def c8Addr2 : Request :=
  { url := { scheme := "https", host := "evil.127.0.0.1.example.com", path := "", query := "" },
    host := "evil.127.0.0.1.example.com", remoteAddr := "" }

/-- C8 counterexample: `127.1.2.3` lies in `127.0.0.0/8`, yet `IsLocalHost`
returns `false` (the regexp demands the literal `127.0.0.`); and the
non-local host `evil.127.0.0.1.example.com` makes `IsLocalHost` return
`true` (the regexp is unanchored) — both against the claimed
characterization. -/
theorem IsLocalHost_cex :
    IsLocalHost c8Addr1 = false ∧ IsLocalHost c8Addr2 = true := by
  constructor <;> decide

/-- C8 as amended: `IsLocalHost` returns `true` exactly when the destination
host is `::1`, `0:0:0:0:0:0:0:1`, `localhost`, or contains (anywhere) the
substring `127.0.0.` followed by a digit. -/
theorem IsLocalHost_spec (req : Request) :
    IsLocalHost req = true
      ↔ (req.url.host = "::1" ∨ req.url.host = "0:0:0:0:0:0:0:1"
          ∨ req.url.host = "localhost"
          ∨ ∃ pre d post,
              req.url.host.data = pre ++ "127.0.0.".data ++ d :: post
              ∧ d.isDigit = true) := by
  unfold IsLocalHost
  simp only [Bool.or_eq_true, beq_iff_eq, localHostIpv4Search_iff]
  constructor
  · rintro (((h | h) | h) | h)
    · exact Or.inl h
    · exact Or.inr (Or.inl h)
    · exact Or.inr (Or.inr (Or.inr h))
    · exact Or.inr (Or.inr (Or.inl h))
  · rintro (h | h | h | h)
    · exact Or.inl (Or.inl (Or.inl h))
    · exact Or.inl (Or.inl (Or.inr h))
    · exact Or.inr h
    · exact Or.inl (Or.inr h)

end Goproxy
